import Mathlib

/-!
Shallow embedding of the glyph-to-vertex assembly core of
`src/graphics_assig_3_1/main.cpp` (functions `insertGlyphCharacter`,
lines 789-823, and `insertString`, lines 825-835), together with the
outline segment data model those functions consume.

Embedding conventions:
* C++ `float` coordinates and advances are modelled by exact rationals
  (`ℚ`); every claim under study is structural (which points are pushed,
  in which order, and exact-arithmetic identities), not about rounding.
* The process-wide globals (`bezierType`, `fontYShiftBy`, `fontShiftBy`,
  `fontScaleBy`, the `glyphExtractor` and the shared `vertices` buffer)
  become explicit parameters; `vertices.push_back` becomes state passing
  on a `List (ℚ × ℚ)`, threaded through the loops by `List.foldl` in
  exactly the source's loop nesting (contour, then segment, then point
  index `k`).
* `GlyphExtractor.ExtractGlyph` is the font-extraction collaborator
  (outside this repository); it is modelled as an arbitrary function
  `Char → MyGlyph`, which the source stores into the global `myGlyph`.
* `mySegment.x[k]` / `mySegment.y[k]` array reads are modelled with
  `List.getD` (the collaborator's invariant is that a segment stores
  `degree + 1` control points, so the reads are in bounds).
-/

namespace GraphicsAssig3

/-- One outline segment: `degree` ∈ {1,2,3} with `degree + 1` control
points, stored as parallel coordinate arrays `x` and `y` as in the
source's `MySegment`. -/
structure MySegment where
  degree : Nat
  x : List ℚ
  y : List ℚ

/-- A contour is an ordered list of segments (`MyContour` in the source). -/
abbrev MyContour := List MySegment

/-- A glyph: ordered contours plus the advance width (`MyGlyph`). -/
structure MyGlyph where
  contours : List MyContour
  advance : ℚ

/-- The session's target curve type (the source's `BezierCurve` enum
selected into the global `bezierType`). -/
inductive BezierCurve where
  | QUADRATIC
  | CUBIC
  deriving DecidableEq

/-- Points per patch minus one: the target degree of a session
(quadratic = 2, cubic = 3). -/
def targetDegree : BezierCurve → Nat
  | BezierCurve.QUADRATIC => 2
  | BezierCurve.CUBIC => 3

/-- The points pushed onto `vertices` by one iteration of the inner
`for (k = 0; k <= degree; k++)` loop of `insertGlyphCharacter`
(main.cpp lines 799-818): each push is
`vec2((x[k] + advance + shiftToCentre) * scaleToFit, (y[k] + fontYShiftBy) * scaleToFit)`;
a degree-1 segment in a cubic session pushes the point twice, a degree-1
segment in a quadratic session pushes it twice exactly when `k == 0`,
and every other case pushes it once. -/
def segPush (bezierType : BezierCurve) (fontYShiftBy : ℚ) (mySegment : MySegment)
    (advance shiftToCentre scaleToFit : ℚ) (k : Nat) : List (ℚ × ℚ) :=
  let p : ℚ × ℚ :=
    ((mySegment.x.getD k 0 + advance + shiftToCentre) * scaleToFit,
     (mySegment.y.getD k 0 + fontYShiftBy) * scaleToFit)
  if mySegment.degree = 1 ∧ bezierType = BezierCurve.CUBIC then
    [p, p]
  else if mySegment.degree = 1 ∧ bezierType = BezierCurve.QUADRATIC then
    (if k = 0 then [p] else []) ++ [p]
  else
    [p]

/-- `insertGlyphCharacter` (main.cpp lines 789-823): looks up the glyph
for `charToInsert`, walks its contours, segments and point indices in
order, pushing `segPush` points onto the shared vertex buffer, and
returns the glyph's `advance`. The result pairs the updated buffer with
the returned advance. -/
def insertGlyphCharacter (font : Char → MyGlyph) (bezierType : BezierCurve)
    (fontYShiftBy : ℚ) (charToInsert : Char)
    (advance shiftToCentre scaleToFit : ℚ)
    (vertices : List (ℚ × ℚ)) : List (ℚ × ℚ) × ℚ :=
  let myGlyph := font charToInsert
  (myGlyph.contours.foldl
     (fun vs myContour =>
       myContour.foldl
         (fun vs2 mySegment =>
           (List.range (mySegment.degree + 1)).foldl
             (fun vs3 k =>
               vs3 ++ segPush bezierType fontYShiftBy mySegment
                        advance shiftToCentre scaleToFit k)
             vs2)
         vs)
     vertices,
   myGlyph.advance)

/-- The block of points one segment contributes to the buffer: the
concatenation of its `segPush` lists over `k = 0, …, degree`. -/
def segBlock (bezierType : BezierCurve) (fontYShiftBy : ℚ) (mySegment : MySegment)
    (advance shiftToCentre scaleToFit : ℚ) : List (ℚ × ℚ) :=
  (List.range (mySegment.degree + 1)).flatMap
    (segPush bezierType fontYShiftBy mySegment advance shiftToCentre scaleToFit)

/-- The block of points one contour contributes: its segments' blocks in
order. -/
def contourBlock (bezierType : BezierCurve) (fontYShiftBy : ℚ) (myContour : MyContour)
    (advance shiftToCentre scaleToFit : ℚ) : List (ℚ × ℚ) :=
  myContour.flatMap
    (fun mySegment =>
      segBlock bezierType fontYShiftBy mySegment advance shiftToCentre scaleToFit)

/-- The NUL-terminated character buffer `insertString` copies the text
into (`char textCharArr[textLenght + 1]; strcpy(textCharArr, text.c_str())`,
main.cpp lines 827-829). -/
def textCharArr (text : List Char) : List Char :=
  text ++ [Char.ofNat 0]

/-- `insertString` (main.cpp lines 825-835) as a state transformer: it
unconditionally inserts the glyph of `textCharArr[0]` at advance offset
`0`, then loops `i = 1, …, textLenght - 1`, inserting `textCharArr[i]`
at the running accumulator `advanceBy` and adding the returned advance
to it. The pair holds the final vertex buffer and the final value of
the local `advanceBy`. -/
def insertStringState (font : Char → MyGlyph) (bezierType : BezierCurve)
    (fontYShiftBy fontShiftBy fontScaleBy : ℚ) (text : List Char)
    (vertices : List (ℚ × ℚ)) : List (ℚ × ℚ) × ℚ :=
  let textLenght := text.length
  let arr := textCharArr text
  let first := insertGlyphCharacter font bezierType fontYShiftBy
    (arr.getD 0 (Char.ofNat 0)) 0 fontShiftBy fontScaleBy vertices
  (List.range' 1 (textLenght - 1)).foldl
    (fun st i =>
      let r := insertGlyphCharacter font bezierType fontYShiftBy
        (arr.getD i (Char.ofNat 0)) st.2 fontShiftBy fontScaleBy st.1
      (r.1, st.2 + r.2))
    first

/-- The observable effect of the `void` function `insertString`: the
updated vertex buffer (the C++ function returns nothing). -/
def insertString (font : Char → MyGlyph) (bezierType : BezierCurve)
    (fontYShiftBy fontShiftBy fontScaleBy : ℚ) (text : List Char)
    (vertices : List (ℚ × ℚ)) : List (ℚ × ℚ) :=
  (insertStringState font bezierType fontYShiftBy fontShiftBy fontScaleBy
    text vertices).1

/-- The final value of `insertString`'s local accumulator `advanceBy`
(discarded when the C++ function returns). -/
def insertStringAdvanceBy (font : Char → MyGlyph) (bezierType : BezierCurve)
    (fontYShiftBy fontShiftBy fontScaleBy : ℚ) (text : List Char)
    (vertices : List (ℚ × ℚ)) : ℚ :=
  (insertStringState font bezierType fontYShiftBy fontShiftBy fontScaleBy
    text vertices).2

/-- Modelled from the spec's words for `emitString` (spec §4.2): a
running advance accumulator starts at `0`; each character's glyph is
emitted at `advanceOffset` equal to the current accumulator with the
same per-string shift, and the glyph's returned advance is then added
to the accumulator. Used to compare the source's first-iteration-peeled
loop against the spec's uniform recursion. -/
def emitStringRec (font : Char → MyGlyph) (bezierType : BezierCurve)
    (fontYShiftBy fontShiftBy fontScaleBy : ℚ) (text : List Char)
    (acc : ℚ) (vertices : List (ℚ × ℚ)) : List (ℚ × ℚ) × ℚ :=
  match text with
  | [] => (vertices, acc)
  | c :: rest =>
      let r := insertGlyphCharacter font bezierType fontYShiftBy c acc
        fontShiftBy fontScaleBy vertices
      emitStringRec font bezierType fontYShiftBy fontShiftBy fontScaleBy
        rest (acc + r.2) r.1

/-- A degree-1 segment from (0,0) to (1,0). -/
def lineSegA : MySegment := ⟨1, [0, 1], [0, 0]⟩

/-- A degree-1 segment from (1,0) to (2,0), continuing `lineSegA`. -/
def lineSegB : MySegment := ⟨1, [1, 2], [0, 0]⟩

/-- A degree-2 (quadratic) segment. -/
def quadSegA : MySegment := ⟨2, [0, 1, 2], [0, 1, 0]⟩

/-- A degree-3 (cubic) segment. -/
def cubicSegA : MySegment := ⟨3, [0, 1, 2, 3], [0, 1, 1, 0]⟩

/-- A glyph whose single contour is two consecutive line segments. -/
def glyphTwoLines : MyGlyph := ⟨[[lineSegA, lineSegB]], 5⟩

/-- A font mapping every character to `glyphTwoLines`. -/
def fontTwoLines : Char → MyGlyph := fun _ => glyphTwoLines

/-- A glyph whose single contour is one quadratic segment, advance 7. -/
def glyphOneQuad : MyGlyph := ⟨[[quadSegA]], 7⟩

/-- A font mapping every character to `glyphOneQuad`. -/
def fontOneQuad : Char → MyGlyph := fun _ => glyphOneQuad

/-- A glyph whose single contour is one cubic segment, advance 4. -/
def glyphOneCubic : MyGlyph := ⟨[[cubicSegA]], 4⟩

/-- A font mapping every character to `glyphOneCubic`. -/
def fontOneCubic : Char → MyGlyph := fun _ => glyphOneCubic

/-- A glyph mixing a line segment and a quadratic segment. -/
def glyphMixed : MyGlyph := ⟨[[lineSegA, quadSegA]], 3⟩

/-- A font mapping every character to `glyphMixed`. -/
def fontMixed : Char → MyGlyph := fun _ => glyphMixed

/-- A family of fonts whose glyphs have no contours at all and a chosen
advance `a`: they emit no points and only contribute their advance. -/
def fontAdvanceOnly (a : ℚ) : Char → MyGlyph := fun _ => ⟨[], a⟩

theorem foldl_append_flatMap {α β : Type} (f : β → List α) (l : List β)
    (init : List α) :
    l.foldl (fun acc x => acc ++ f x) init = init ++ l.flatMap f := by
  induction l generalizing init with
  | nil => simp
  | cons a t ih => simp [ih]

theorem flatMap_congr {α β : Type} {l : List α} {f g : α → List β}
    (h : ∀ a ∈ l, f a = g a) : l.flatMap f = l.flatMap g := by
  induction l with
  | nil => rfl
  | cons a t ih =>
      simp only [List.flatMap_cons, h a (List.mem_cons_self a t),
        ih fun x hx => h x (List.mem_cons_of_mem a hx)]

theorem flatMap_single {α β : Type} (g : β → α) (l : List β) :
    l.flatMap (fun x => [g x]) = l.map g := by
  induction l with
  | nil => rfl
  | cons a t ih => simp [ih]

theorem insertGlyphCharacter_fst (font : Char → MyGlyph) (bt : BezierCurve)
    (ySh : ℚ) (ch : Char) (adv sh sc : ℚ) (v : List (ℚ × ℚ)) :
    (insertGlyphCharacter font bt ySh ch adv sh sc v).1
      = v ++ (font ch).contours.flatMap
          (fun ct => contourBlock bt ySh ct adv sh sc) := by
  simp only [insertGlyphCharacter, contourBlock, segBlock, foldl_append_flatMap]

theorem insertGlyphCharacter_snd (font : Char → MyGlyph) (bt : BezierCurve)
    (ySh : ℚ) (ch : Char) (adv sh sc : ℚ) (v : List (ℚ × ℚ)) :
    (insertGlyphCharacter font bt ySh ch adv sh sc v).2 = (font ch).advance := rfl

theorem segBlock_line_quadratic (ySh adv sh sc : ℚ) (seg : MySegment)
    (h : seg.degree = 1) :
    segBlock BezierCurve.QUADRATIC ySh seg adv sh sc
      = [((seg.x.getD 0 0 + adv + sh) * sc, (seg.y.getD 0 0 + ySh) * sc),
         ((seg.x.getD 0 0 + adv + sh) * sc, (seg.y.getD 0 0 + ySh) * sc),
         ((seg.x.getD 1 0 + adv + sh) * sc, (seg.y.getD 1 0 + ySh) * sc)] := by
  simp [segBlock, segPush, h, List.range_succ]

theorem segBlock_line_cubic (ySh adv sh sc : ℚ) (seg : MySegment)
    (h : seg.degree = 1) :
    segBlock BezierCurve.CUBIC ySh seg adv sh sc
      = [((seg.x.getD 0 0 + adv + sh) * sc, (seg.y.getD 0 0 + ySh) * sc),
         ((seg.x.getD 0 0 + adv + sh) * sc, (seg.y.getD 0 0 + ySh) * sc),
         ((seg.x.getD 1 0 + adv + sh) * sc, (seg.y.getD 1 0 + ySh) * sc),
         ((seg.x.getD 1 0 + adv + sh) * sc, (seg.y.getD 1 0 + ySh) * sc)] := by
  simp [segBlock, segPush, h, List.range_succ]

theorem segPush_of_ne_one (bt : BezierCurve) (ySh adv sh sc : ℚ)
    (seg : MySegment) (h : ¬ seg.degree = 1) (k : Nat) :
    segPush bt ySh seg adv sh sc k
      = [((seg.x.getD k 0 + adv + sh) * sc, (seg.y.getD k 0 + ySh) * sc)] := by
  simp [segPush, h]

theorem segBlock_of_ne_one (bt : BezierCurve) (ySh adv sh sc : ℚ)
    (seg : MySegment) (h : ¬ seg.degree = 1) :
    segBlock bt ySh seg adv sh sc
      = (List.range (seg.degree + 1)).map (fun k =>
          ((seg.x.getD k 0 + adv + sh) * sc, (seg.y.getD k 0 + ySh) * sc)) := by
  have hf : segPush bt ySh seg adv sh sc = fun k =>
      [((seg.x.getD k 0 + adv + sh) * sc, (seg.y.getD k 0 + ySh) * sc)] :=
    funext (segPush_of_ne_one bt ySh adv sh sc seg h)
  rw [segBlock, hf, flatMap_single]

theorem targetDegree_ge_two (bt : BezierCurve) : 2 ≤ targetDegree bt := by
  cases bt <;> simp [targetDegree]

theorem segBlock_of_target (bt : BezierCurve) (ySh adv sh sc : ℚ)
    (seg : MySegment) (h : seg.degree = targetDegree bt) :
    segBlock bt ySh seg adv sh sc
      = (List.range (targetDegree bt + 1)).map (fun k =>
          ((seg.x.getD k 0 + adv + sh) * sc, (seg.y.getD k 0 + ySh) * sc)) := by
  have h2 := targetDegree_ge_two bt
  have h1 : ¬ seg.degree = 1 := by omega
  rw [segBlock_of_ne_one bt ySh adv sh sc seg h1, h]

theorem segBlock_length (bt : BezierCurve) (ySh adv sh sc : ℚ)
    (seg : MySegment) (h : seg.degree = 1 ∨ seg.degree = targetDegree bt) :
    (segBlock bt ySh seg adv sh sc).length = targetDegree bt + 1 := by
  cases bt with
  | QUADRATIC =>
      rcases h with h | h
      · rw [segBlock_line_quadratic ySh adv sh sc seg h]; rfl
      · have h1 : ¬ seg.degree = 1 := by
          simp only [targetDegree] at h; omega
        rw [segBlock_of_ne_one _ ySh adv sh sc seg h1]
        simp [h, targetDegree]
  | CUBIC =>
      rcases h with h | h
      · rw [segBlock_line_cubic ySh adv sh sc seg h]; rfl
      · have h1 : ¬ seg.degree = 1 := by
          simp only [targetDegree] at h; omega
        rw [segBlock_of_ne_one _ ySh adv sh sc seg h1]
        simp [h, targetDegree]

theorem contourBlock_length (bt : BezierCurve) (ySh adv sh sc : ℚ)
    (ct : MyContour)
    (h : ∀ s ∈ ct, s.degree = 1 ∨ s.degree = targetDegree bt) :
    (contourBlock bt ySh ct adv sh sc).length
      = ct.length * (targetDegree bt + 1) := by
  induction ct with
  | nil => simp [contourBlock]
  | cons s t ih =>
      have hs := h s (List.mem_cons_self s t)
      have ht := ih fun x hx => h x (List.mem_cons_of_mem s hx)
      simp only [contourBlock, List.flatMap_cons, List.length_append,
        List.length_cons]
      simp only [contourBlock] at ht
      rw [ht, segBlock_length bt ySh adv sh sc s hs]
      ring

theorem glyphBlocks_length (bt : BezierCurve) (ySh adv sh sc : ℚ)
    (ctl : List MyContour)
    (h : ∀ ct ∈ ctl, ∀ s ∈ ct, s.degree = 1 ∨ s.degree = targetDegree bt) :
    (ctl.flatMap (fun ct => contourBlock bt ySh ct adv sh sc)).length
      = (ctl.flatMap (fun ct => ct)).length * (targetDegree bt + 1) := by
  induction ctl with
  | nil => simp
  | cons c t ih =>
      have hc := h c (List.mem_cons_self c t)
      have ht := ih fun x hx => h x (List.mem_cons_of_mem c hx)
      simp only [List.flatMap_cons, List.length_append]
      rw [ht, contourBlock_length bt ySh adv sh sc c hc]
      ring

theorem contourBlock_of_target (bt : BezierCurve) (ySh adv sh sc : ℚ)
    (ct : MyContour) (h : ∀ s ∈ ct, s.degree = targetDegree bt) :
    contourBlock bt ySh ct adv sh sc
      = ct.flatMap (fun s => (List.range (targetDegree bt + 1)).map (fun k =>
          ((s.x.getD k 0 + adv + sh) * sc, (s.y.getD k 0 + ySh) * sc))) := by
  exact flatMap_congr fun s hs => segBlock_of_target bt ySh adv sh sc s (h s hs)

theorem foldl_range'_getD {β : Type} (step : β → Char → β) (d : Char)
    (pre l ext : List Char) (st0 : β) :
    (List.range' pre.length l.length).foldl
        (fun st i => step st ((pre ++ (l ++ ext)).getD i d)) st0
      = l.foldl step st0 := by
  induction l generalizing pre st0 with
  | nil => simp
  | cons a t ih =>
      rw [List.length_cons, List.range'_succ, List.foldl_cons]
      have hget : (pre ++ (a :: t ++ ext)).getD pre.length d = a := by
        rw [List.getD_append_right pre _ d pre.length le_rfl]
        simp
      rw [hget]
      have h2 := ih (pre ++ [a]) (step st0 a)
      simp only [List.length_append, List.length_singleton,
        List.append_assoc, List.singleton_append, List.cons_append] at h2
      exact h2

theorem foldl_step_eq_emitStringRec (font : Char → MyGlyph) (bt : BezierCurve)
    (ySh sh sc : ℚ) (cs : List Char) (v : List (ℚ × ℚ)) (a : ℚ) :
    cs.foldl
        (fun st c =>
          ((insertGlyphCharacter font bt ySh c st.2 sh sc st.1).1,
           st.2 + (insertGlyphCharacter font bt ySh c st.2 sh sc st.1).2))
        (v, a)
      = emitStringRec font bt ySh sh sc cs a v := by
  induction cs generalizing v a with
  | nil => rfl
  | cons c t ih =>
      rw [List.foldl_cons, emitStringRec]
      exact ih _ _

theorem insertStringState_cons (font : Char → MyGlyph) (bt : BezierCurve)
    (ySh sh sc : ℚ) (c : Char) (cs : List Char) (v : List (ℚ × ℚ)) :
    insertStringState font bt ySh sh sc (c :: cs) v
      = emitStringRec font bt ySh sh sc (c :: cs) 0 v := by
  simp only [insertStringState, textCharArr, List.cons_append,
    List.getD_cons_zero, List.length_cons, Nat.add_sub_cancel]
  have h := foldl_range'_getD
    (fun st c2 =>
      ((insertGlyphCharacter font bt ySh c2 st.2 sh sc st.1).1,
       st.2 + (insertGlyphCharacter font bt ySh c2 st.2 sh sc st.1).2))
    (Char.ofNat 0) [c] cs [Char.ofNat 0]
    (insertGlyphCharacter font bt ySh c 0 sh sc v)
  simp only [List.length_singleton, List.singleton_append] at h
  rw [h, foldl_step_eq_emitStringRec]
  conv_rhs => rw [emitStringRec]
  rw [zero_add]

/-- C1 counterexample: with two consecutive degree-1 segments in one
contour of a quadratic session, the second (non-first) segment also
contributes three points `[p0, p0, p1]`, so the full emitted stream has
six points, not the five points the claim predicts (three for the first
segment, then only `[p0, p1]` for the subsequent one). -/
theorem claim_C1_counterexample :
    (insertGlyphCharacter fontTwoLines BezierCurve.QUADRATIC 0 'a' 0 0 1 []).1
      = [(0, 0), (0, 0), (1, 0), (1, 0), (1, 0), (2, 0)]
    ∧ (insertGlyphCharacter fontTwoLines BezierCurve.QUADRATIC 0 'a' 0 0 1 []).1
      ≠ [(0, 0), (0, 0), (1, 0), (1, 0), (2, 0)] := by
  have hval :
      (insertGlyphCharacter fontTwoLines BezierCurve.QUADRATIC 0 'a' 0 0 1 []).1
        = [(0, 0), (0, 0), (1, 0), (1, 0), (1, 0), (2, 0)] := by
    rw [insertGlyphCharacter_fst]
    simp [fontTwoLines, glyphTwoLines, contourBlock, lineSegA, lineSegB,
      segBlock_line_quadratic, List.getD_cons_zero, List.getD_cons_succ]
  refine ⟨hval, ?_⟩
  rw [hval]
  intro hEq
  have hlen := congrArg List.length hEq
  simp at hlen

/-- C1 (amended): in a quadratic session the emitted stream is the
concatenation of per-contour blocks, and within a contour a degree-1
segment contributes the three transformed points `[p0, p0, p1]`
whether it is the first segment of the contour or any subsequent one —
subsequent degree-1 segments are not reduced to two points. -/
theorem claim_C1 (font : Char → MyGlyph) (ySh adv sh sc : ℚ) (ch : Char)
    (v : List (ℚ × ℚ)) (pre post : List MySegment) (seg : MySegment)
    (h : seg.degree = 1) :
    (insertGlyphCharacter font BezierCurve.QUADRATIC ySh ch adv sh sc v).1
      = v ++ (font ch).contours.flatMap
          (fun ct => contourBlock BezierCurve.QUADRATIC ySh ct adv sh sc)
    ∧ contourBlock BezierCurve.QUADRATIC ySh (pre ++ seg :: post) adv sh sc
      = contourBlock BezierCurve.QUADRATIC ySh pre adv sh sc
        ++ [((seg.x.getD 0 0 + adv + sh) * sc, (seg.y.getD 0 0 + ySh) * sc),
            ((seg.x.getD 0 0 + adv + sh) * sc, (seg.y.getD 0 0 + ySh) * sc),
            ((seg.x.getD 1 0 + adv + sh) * sc, (seg.y.getD 1 0 + ySh) * sc)]
        ++ contourBlock BezierCurve.QUADRATIC ySh post adv sh sc := by
  refine ⟨insertGlyphCharacter_fst font BezierCurve.QUADRATIC ySh ch adv sh sc v, ?_⟩
  simp [contourBlock, List.flatMap_append, List.flatMap_cons,
    segBlock_line_quadratic ySh adv sh sc seg h]

/-- C1 witness: the amended statement instantiated with `lineSegB` as a
non-first degree-1 segment (one earlier segment in the contour). -/
theorem claim_C1_witness :
    lineSegB.degree = 1
    ∧ ((insertGlyphCharacter fontTwoLines BezierCurve.QUADRATIC 0 'a' 0 0 1 []).1
        = [] ++ (fontTwoLines 'a').contours.flatMap
            (fun ct => contourBlock BezierCurve.QUADRATIC 0 ct 0 0 1)
      ∧ contourBlock BezierCurve.QUADRATIC 0 ([lineSegA] ++ lineSegB :: []) 0 0 1
        = contourBlock BezierCurve.QUADRATIC 0 [lineSegA] 0 0 1
          ++ [((lineSegB.x.getD 0 0 + 0 + 0) * 1, (lineSegB.y.getD 0 0 + 0) * 1),
              ((lineSegB.x.getD 0 0 + 0 + 0) * 1, (lineSegB.y.getD 0 0 + 0) * 1),
              ((lineSegB.x.getD 1 0 + 0 + 0) * 1, (lineSegB.y.getD 1 0 + 0) * 1)]
          ++ contourBlock BezierCurve.QUADRATIC 0 [] 0 0 1) :=
  ⟨rfl, claim_C1 fontTwoLines 0 0 0 1 'a' [] [lineSegA] [] lineSegB rfl⟩

/-- C2: in a cubic session every degree-1 segment contributes exactly
the four transformed points `[p0, p0, p1, p1]` (each endpoint
duplicated), and the buffer grows by the concatenation of these
per-segment blocks in contour-then-segment order. -/
theorem claim_C2 (font : Char → MyGlyph) (ySh adv sh sc : ℚ) (ch : Char)
    (v : List (ℚ × ℚ)) (seg : MySegment) (h : seg.degree = 1) :
    (insertGlyphCharacter font BezierCurve.CUBIC ySh ch adv sh sc v).1
      = v ++ (font ch).contours.flatMap
          (fun ct => contourBlock BezierCurve.CUBIC ySh ct adv sh sc)
    ∧ segBlock BezierCurve.CUBIC ySh seg adv sh sc
      = [(seg.x.getD 0 0, seg.y.getD 0 0), (seg.x.getD 0 0, seg.y.getD 0 0),
         (seg.x.getD 1 0, seg.y.getD 1 0),
         (seg.x.getD 1 0, seg.y.getD 1 0)].map
          (fun p => ((p.1 + adv + sh) * sc, (p.2 + ySh) * sc)) :=
  ⟨insertGlyphCharacter_fst font BezierCurve.CUBIC ySh ch adv sh sc v,
   segBlock_line_cubic ySh adv sh sc seg h⟩

/-- C2 witness: the statement instantiated with a degree-1 segment in a
cubic session. -/
theorem claim_C2_witness :
    lineSegA.degree = 1
    ∧ ((insertGlyphCharacter fontTwoLines BezierCurve.CUBIC 0 'a' 0 0 1 []).1
        = [] ++ (fontTwoLines 'a').contours.flatMap
            (fun ct => contourBlock BezierCurve.CUBIC 0 ct 0 0 1)
      ∧ segBlock BezierCurve.CUBIC 0 lineSegA 0 0 1
        = [(lineSegA.x.getD 0 0, lineSegA.y.getD 0 0),
           (lineSegA.x.getD 0 0, lineSegA.y.getD 0 0),
           (lineSegA.x.getD 1 0, lineSegA.y.getD 1 0),
           (lineSegA.x.getD 1 0, lineSegA.y.getD 1 0)].map
            (fun p => ((p.1 + 0 + 0) * 1, (p.2 + 0) * 1))) :=
  ⟨rfl, claim_C2 fontTwoLines 0 0 0 1 'a' [] lineSegA rfl⟩

/-- C9: in a quadratic session, every degree-1 segment contributes
exactly the three transformed points `[p0, p0, p1]` — the contribution
function `segBlock` takes no position argument, so the contribution is
identical for the first segment of a contour and for any later one —
and the buffer grows by the concatenation of these per-segment blocks. -/
theorem claim_C9 (font : Char → MyGlyph) (ySh adv sh sc : ℚ) (ch : Char)
    (v : List (ℚ × ℚ)) (seg : MySegment) (h : seg.degree = 1) :
    (insertGlyphCharacter font BezierCurve.QUADRATIC ySh ch adv sh sc v).1
      = v ++ (font ch).contours.flatMap
          (fun ct => contourBlock BezierCurve.QUADRATIC ySh ct adv sh sc)
    ∧ segBlock BezierCurve.QUADRATIC ySh seg adv sh sc
      = [(seg.x.getD 0 0, seg.y.getD 0 0), (seg.x.getD 0 0, seg.y.getD 0 0),
         (seg.x.getD 1 0, seg.y.getD 1 0)].map
          (fun p => ((p.1 + adv + sh) * sc, (p.2 + ySh) * sc)) :=
  ⟨insertGlyphCharacter_fst font BezierCurve.QUADRATIC ySh ch adv sh sc v,
   segBlock_line_quadratic ySh adv sh sc seg h⟩

/-- C9 witness: the statement instantiated with the second line segment
of a two-line contour, showing the same three-point contribution as for
the first. -/
theorem claim_C9_witness :
    lineSegB.degree = 1
    ∧ ((insertGlyphCharacter fontTwoLines BezierCurve.QUADRATIC 0 'b' 0 0 1 []).1
        = [] ++ (fontTwoLines 'b').contours.flatMap
            (fun ct => contourBlock BezierCurve.QUADRATIC 0 ct 0 0 1)
      ∧ segBlock BezierCurve.QUADRATIC 0 lineSegB 0 0 1
        = [(lineSegB.x.getD 0 0, lineSegB.y.getD 0 0),
           (lineSegB.x.getD 0 0, lineSegB.y.getD 0 0),
           (lineSegB.x.getD 1 0, lineSegB.y.getD 1 0)].map
            (fun p => ((p.1 + 0 + 0) * 1, (p.2 + 0) * 1))) :=
  ⟨rfl, claim_C9 fontTwoLines 0 0 0 1 'b' [] lineSegB rfl⟩

/-- C3: when every segment of the glyph already has the session's
target degree, the buffer grows by exactly `targetDegree + 1` points
per segment, in contour-then-segment order, each control point `(x, y)`
mapped to `((x + advanceOffset + shift) * scale, (y + verticalShift) * scale)`;
the formula shows the advance offset and horizontal shift touch only
the first coordinate and the vertical shift only the second. -/
theorem claim_C3 (font : Char → MyGlyph) (bt : BezierCurve)
    (ySh adv sh sc : ℚ) (ch : Char) (v : List (ℚ × ℚ))
    (h : ∀ ct ∈ (font ch).contours, ∀ s ∈ ct, s.degree = targetDegree bt) :
    (insertGlyphCharacter font bt ySh ch adv sh sc v).1
      = v ++ (font ch).contours.flatMap (fun ct => ct.flatMap (fun s =>
          (List.range (targetDegree bt + 1)).map (fun k =>
            ((s.x.getD k 0 + adv + sh) * sc, (s.y.getD k 0 + ySh) * sc))))
    ∧ (insertGlyphCharacter font bt ySh ch adv sh sc v).1.length
      = v.length
        + ((font ch).contours.flatMap (fun ct => ct)).length
            * (targetDegree bt + 1) := by
  constructor
  · rw [insertGlyphCharacter_fst]
    congr 1
    exact flatMap_congr fun ct hct =>
      contourBlock_of_target bt ySh adv sh sc ct (h ct hct)
  · rw [insertGlyphCharacter_fst, List.length_append]
    congr 1
    exact glyphBlocks_length bt ySh adv sh sc (font ch).contours
      fun ct hct s hs => Or.inr (h ct hct s hs)

/-- C3 witness: a glyph consisting of one quadratic segment in a
quadratic session. -/
theorem claim_C3_witness :
    (∀ ct ∈ (fontOneQuad 'q').contours, ∀ s ∈ ct,
        s.degree = targetDegree BezierCurve.QUADRATIC)
    ∧ ((insertGlyphCharacter fontOneQuad BezierCurve.QUADRATIC 0 'q' 0 0 1 []).1
        = [] ++ (fontOneQuad 'q').contours.flatMap (fun ct => ct.flatMap (fun s =>
            (List.range (targetDegree BezierCurve.QUADRATIC + 1)).map (fun k =>
              ((s.x.getD k 0 + 0 + 0) * 1, (s.y.getD k 0 + 0) * 1))))
      ∧ (insertGlyphCharacter fontOneQuad BezierCurve.QUADRATIC 0 'q' 0 0 1 []).1.length
        = List.length ([] : List (ℚ × ℚ))
          + ((fontOneQuad 'q').contours.flatMap (fun ct => ct)).length
              * (targetDegree BezierCurve.QUADRATIC + 1)) :=
  ⟨by simp [fontOneQuad, glyphOneQuad, quadSegA, targetDegree],
   claim_C3 fontOneQuad BezierCurve.QUADRATIC 0 0 0 1 'q' []
     (by simp [fontOneQuad, glyphOneQuad, quadSegA, targetDegree])⟩

/-- C6: when every segment of the glyph has degree 1 or the target
degree, the number of points appended by `insertGlyphCharacter` is an
exact multiple of `targetDegree + 1`: no partial patch group is ever
emitted. -/
theorem claim_C6 (font : Char → MyGlyph) (bt : BezierCurve)
    (ySh adv sh sc : ℚ) (ch : Char) (v : List (ℚ × ℚ))
    (h : ∀ ct ∈ (font ch).contours, ∀ s ∈ ct,
        s.degree = 1 ∨ s.degree = targetDegree bt) :
    (targetDegree bt + 1)
      ∣ ((insertGlyphCharacter font bt ySh ch adv sh sc v).1.length
          - v.length) := by
  rw [insertGlyphCharacter_fst, List.length_append, Nat.add_sub_cancel_left,
    glyphBlocks_length bt ySh adv sh sc (font ch).contours h]
  exact dvd_mul_left _ _

/-- C6 witness: a glyph mixing a degree-1 segment and a degree-2
segment in a quadratic session. -/
theorem claim_C6_witness :
    (∀ ct ∈ (fontMixed 'm').contours, ∀ s ∈ ct,
        s.degree = 1 ∨ s.degree = targetDegree BezierCurve.QUADRATIC)
    ∧ (targetDegree BezierCurve.QUADRATIC + 1)
        ∣ ((insertGlyphCharacter fontMixed BezierCurve.QUADRATIC 0 'm' 0 0 1 []).1.length
            - List.length ([] : List (ℚ × ℚ))) :=
  ⟨by simp [fontMixed, glyphMixed, lineSegA, quadSegA, targetDegree],
   claim_C6 fontMixed BezierCurve.QUADRATIC 0 0 0 1 'm' []
     (by simp [fontMixed, glyphMixed, lineSegA, quadSegA, targetDegree])⟩

/-- C8: `insertGlyphCharacter` only appends to the vertex buffer: the
buffer it was given is an unchanged initial run of the buffer it
returns (the new buffer is the old one followed by some tail). -/
theorem claim_C8 (font : Char → MyGlyph) (bt : BezierCurve)
    (ySh adv sh sc : ℚ) (ch : Char) (v : List (ℚ × ℚ)) :
    ∃ tail, (insertGlyphCharacter font bt ySh ch adv sh sc v).1 = v ++ tail :=
  ⟨_, insertGlyphCharacter_fst font bt ySh ch adv sh sc v⟩

/-- C4 counterexample: `insertString` is a `void` function — its only
observable result is the updated vertex buffer. Two fonts that differ
only in the glyph's advance (1 versus 2) produce identical
`insertString` results on the one-character string "A", while the final
value of the internal advance accumulator differs (1 versus 2): the
final accumulated advance is therefore not returned by `insertString`. -/
theorem claim_C4_counterexample :
    insertString (fontAdvanceOnly 1) BezierCurve.QUADRATIC 0 0 1 ['A'] []
      = insertString (fontAdvanceOnly 2) BezierCurve.QUADRATIC 0 0 1 ['A'] []
    ∧ insertStringAdvanceBy (fontAdvanceOnly 1) BezierCurve.QUADRATIC 0 0 1 ['A'] [] = 1
    ∧ insertStringAdvanceBy (fontAdvanceOnly 2) BezierCurve.QUADRATIC 0 0 1 ['A'] [] = 2
    ∧ (1 : ℚ) ≠ 2 :=
  ⟨rfl, rfl, rfl, by norm_num⟩

/-- C4 (amended): `insertGlyphCharacter` returns the glyph's own
advance unmodified (independent of the offset, shift and scale
arguments), and on a nonempty string `insertStringState` — the vertex
buffer plus the local accumulator — evolves exactly as the spec's
accumulator recursion `emitStringRec` starting at 0, with the same
shift applied to every glyph; the final accumulated advance, however,
is only a local value: the `void` function returns nothing. -/
theorem claim_C4 (font : Char → MyGlyph) (bt : BezierCurve)
    (ySh sh sc adv : ℚ) (c : Char) (cs : List Char)
    (v w : List (ℚ × ℚ)) :
    (insertGlyphCharacter font bt ySh c adv sh sc w).2 = (font c).advance
    ∧ insertStringState font bt ySh sh sc (c :: cs) v
        = emitStringRec font bt ySh sh sc (c :: cs) 0 v :=
  ⟨rfl, insertStringState_cons font bt ySh sh sc c cs v⟩

/-- C5 counterexample: on the empty string, `insertString` is not a
no-op. With a font whose glyph at character code 0 is one quadratic
segment with advance 7, a quadratic-session `insertString` of `""`
appends three points (not zero) and accumulates advance 7 (not 0). -/
theorem claim_C5_counterexample :
    (insertString fontOneQuad BezierCurve.QUADRATIC 0 0 1 [] []).length = 3
    ∧ insertStringAdvanceBy fontOneQuad BezierCurve.QUADRATIC 0 0 1 [] [] = 7
    ∧ (3 : Nat) ≠ 0 ∧ (7 : ℚ) ≠ 0 :=
  ⟨rfl, rfl, by norm_num, by norm_num⟩

/-- C5 (amended): on the empty string `insertString` does not fault,
but it is not a no-op either: it performs exactly one glyph insertion,
for character code 0 (the NUL terminator read at index 0 of the copied
character buffer), at advance offset 0. -/
theorem claim_C5 (font : Char → MyGlyph) (bt : BezierCurve)
    (ySh sh sc : ℚ) (v : List (ℚ × ℚ)) :
    insertStringState font bt ySh sh sc [] v
      = insertGlyphCharacter font bt ySh (Char.ofNat 0) 0 sh sc v := rfl

/-- C7: for every font, session type, shifts and scale, the advance
accumulated over the two-character string "AB" equals the advance
accumulated over "A" alone plus the advance accumulated over "B" alone
(each glyph contributes its own advance, independent of offsets). -/
theorem claim_C7 (font : Char → MyGlyph) (bt : BezierCurve)
    (ySh sh sc : ℚ) (v v1 v2 : List (ℚ × ℚ)) :
    insertStringAdvanceBy font bt ySh sh sc ['A', 'B'] v
      = insertStringAdvanceBy font bt ySh sh sc ['A'] v1
        + insertStringAdvanceBy font bt ySh sh sc ['B'] v2 := rfl

/-- C10: `insertString` copies the text into a NUL-terminated buffer of
length `length + 1`, so index 0 is always in bounds; for the empty
string that element is the NUL terminator, and the call performs
exactly one glyph insertion with character code 0 — emitting that
glyph's points — rather than emitting nothing. -/
theorem claim_C10 (font : Char → MyGlyph) (bt : BezierCurve)
    (ySh sh sc : ℚ) (v : List (ℚ × ℚ)) (text : List Char) :
    (textCharArr text).length = text.length + 1
    ∧ 0 < (textCharArr text).length
    ∧ (textCharArr []).getD 0 (Char.ofNat 0) = Char.ofNat 0
    ∧ insertString font bt ySh sh sc [] v
        = (insertGlyphCharacter font bt ySh (Char.ofNat 0) 0 sh sc v).1 :=
  ⟨by simp [textCharArr], by simp [textCharArr], rfl, rfl⟩

end GraphicsAssig3
